import Mathlib

/-!
Verification of the clinic operations backend (orms-backend).

The development shallowly embeds the route handlers of `routes/billing.py`,
`routes/patients.py` and the helpers of `utils/formatters.py` as pure Lean
functions over an explicit relational state (`DB`).  SQL queries are modelled
as list operations over the tables they read; `NOW()` / `CURDATE()` are passed
in as an explicit `DateTime` argument; ids produced by `uuid` are passed in as
explicit fresh-id arguments.  Money values are modelled with exact rational
arithmetic.
-/

/-- A calendar datetime, split into a day number and minutes within the day.
`DATE(x)` in SQL corresponds to the `day` projection. -/
structure DateTime where
  day : Nat
  mins : Nat
deriving DecidableEq

/-- Strict comparison of datetimes (lexicographic on day, then minutes). -/
def DateTime.ltb (a b : DateTime) : Bool :=
  decide (a.day < b.day ∨ (a.day = b.day ∧ a.mins < b.mins))

/-- Non-strict comparison of datetimes. -/
def DateTime.leb (a b : DateTime) : Bool :=
  decide (a.day < b.day ∨ (a.day = b.day ∧ a.mins ≤ b.mins))

theorem DateTime.leb_refl (a : DateTime) : a.leb a = true := by
  simp [DateTime.leb]

theorem DateTime.leb_of_not_ltb {a b : DateTime} (h : a.ltb b = false) :
    b.leb a = true := by
  simp only [DateTime.ltb, decide_eq_false_iff_not] at h
  simp only [DateTime.leb, decide_eq_true_eq]
  omega

theorem DateTime.leb_of_ltb {a b : DateTime} (h : a.ltb b = true) :
    a.leb b = true := by
  simp only [DateTime.ltb, decide_eq_true_eq] at h
  simp only [DateTime.leb, decide_eq_true_eq]
  omega

theorem DateTime.leb_trans {a b c : DateTime} (h1 : a.leb b = true)
    (h2 : b.leb c = true) : a.leb c = true := by
  simp only [DateTime.leb, decide_eq_true_eq] at h1 h2 ⊢
  omega

/-! ### Python string helpers (`str.replace`, `str.zfill`)

`pyReplaceAux` models Python's `str.replace`, which scans left to right and
replaces every non-overlapping occurrence of the pattern.  Recursion is made
structural with a fuel argument; one character is consumed per step, so fuel
equal to the length of the scanned string always suffices. -/

def pyReplaceAux (pat repl : List Char) : Nat → List Char → List Char
  | 0, s => s
  | _ + 1, [] => []
  | fuel + 1, c :: rest =>
    if pat ≠ [] ∧ pat.isPrefixOf (c :: rest) then
      repl ++ pyReplaceAux pat repl fuel (List.drop pat.length (c :: rest))
    else
      c :: pyReplaceAux pat repl fuel rest

def pyReplaceL (pat repl s : List Char) : List Char :=
  pyReplaceAux pat repl s.length s

/-- Python `s.replace(pat, repl)` on Lean strings. -/
def pyReplace (s pat repl : String) : String :=
  String.mk (pyReplaceL pat.data repl.data s.data)

/-- Number of non-overlapping, left-to-right occurrences of `pat`
(the occurrences that `str.replace` acts on). -/
def countOccAux (pat : List Char) : Nat → List Char → Nat
  | 0, _ => 0
  | _ + 1, [] => 0
  | fuel + 1, c :: rest =>
    if pat ≠ [] ∧ pat.isPrefixOf (c :: rest) then
      1 + countOccAux pat fuel (List.drop pat.length (c :: rest))
    else
      countOccAux pat fuel rest

def countOcc (pat s : List Char) : Nat := countOccAux pat s.length s

/-- Whether `pat` occurs somewhere in the string. -/
def hasOcc (pat : List Char) : List Char → Bool
  | [] => false
  | c :: rest => pat.isPrefixOf (c :: rest) || hasOcc pat rest

/-- Python `str.zfill(w)` for non-negative inputs: left-pad with zeros to width `w`. -/
def zfill (w : Nat) (s : String) : String :=
  String.mk (List.replicate (w - s.data.length) '0' ++ s.data)

/-! ### `utils/formatters.py` and the reverse mapping in `routes/billing.py` -/

/-- The `format_invoice_id` helper on a string bill id: `bill_id.replace('BILL-', 'INV-')`. -/
def format_invoice_id (bill_id : String) : String :=
  pyReplace bill_id "BILL-" "INV-"

/-- The `format_invoice_id` helper on a raw numeric id: `"INV-" + str(bill_id).zfill(6)`. -/
def format_invoice_id_of_num (n : Nat) : String :=
  "INV-" ++ zfill 6 (toString n)

/-- The reverse mapping used by the routes: `invoice_id.replace('INV-', 'BILL-')`. -/
def invoice_to_bill_id (invoice_id : String) : String :=
  pyReplace invoice_id "INV-" "BILL-"

theorem pyReplaceAux_no_occ (pat repl : List Char) :
    ∀ fuel s, hasOcc pat s = false → pyReplaceAux pat repl fuel s = s := by
  intro fuel
  induction fuel with
  | zero => intro s _; rfl
  | succ n ih =>
    intro s hs
    cases s with
    | nil => rfl
    | cons c rest =>
      simp only [hasOcc, Bool.or_eq_false_iff] at hs
      rw [pyReplaceAux, if_neg, ih rest hs.2]
      intro hcon
      rw [hs.1] at hcon
      exact Bool.false_ne_true hcon.2

theorem pyReplaceAux_head_match (pat repl t : List Char) (hne : pat ≠ [])
    (hocc : hasOcc pat t = false) (fuel : Nat) :
    pyReplaceAux pat repl (fuel + 1) (pat ++ t) = repl ++ t := by
  cases pat with
  | nil => exact absurd rfl hne
  | cons p ps =>
    have hpre : (p :: ps).isPrefixOf ((p :: ps) ++ t) = true := by
      rw [List.isPrefixOf_iff_prefix]
      exact List.prefix_append _ _
    show pyReplaceAux (p :: ps) repl (fuel + 1) (p :: (ps ++ t)) = repl ++ t
    rw [pyReplaceAux, if_pos ⟨hne, hpre⟩]
    have hdrop : List.drop (p :: ps).length (p :: (ps ++ t)) = t := by
      have h := List.drop_left (p :: ps) t
      simp only [List.cons_append] at h
      exact h
    rw [hdrop, pyReplaceAux_no_occ (p :: ps) repl fuel t hocc]

theorem pyReplaceL_head_match (pat repl t : List Char) (hne : pat ≠ [])
    (hocc : hasOcc pat t = false) :
    pyReplaceL pat repl (pat ++ t) = repl ++ t := by
  cases pat with
  | nil => exact absurd rfl hne
  | cons p ps =>
    have hlen : ((p :: ps) ++ t).length = ((ps ++ t).length) + 1 := by
      simp
    rw [pyReplaceL, hlen]
    exact pyReplaceAux_head_match (p :: ps) repl t hne hocc _

/-- C8 counterexample: the bill id `"BILL-INV-AB"` begins with `"BILL-"` and
contains exactly one occurrence of `"BILL-"`, yet the reverse mapping applied
to its formatted form does not return the original id (it yields
`"BILL-BILL-AB"`), so the round-trip clause of the claim fails. -/
theorem c8_roundtrip_counterexample :
    ("BILL-".data.isPrefixOf "BILL-INV-AB".data = true) ∧
    countOcc "BILL-".data "BILL-INV-AB".data = 1 ∧
    format_invoice_id "BILL-INV-AB" = "INV-INV-AB" ∧
    invoice_to_bill_id (format_invoice_id "BILL-INV-AB") = "BILL-BILL-AB" ∧
    invoice_to_bill_id (format_invoice_id "BILL-INV-AB") ≠ "BILL-INV-AB" := by
  refine ⟨by decide, by decide, by decide, by decide, by decide⟩

/-- C8 (amended): for a bill id `"BILL-" ++ t` in which `"BILL-"` occurs only
as the leading prefix, formatting yields `"INV-" ++ t`; if additionally `t`
contains no occurrence of `"INV-"`, the reverse mapping returns the original
id.  For a raw numeric id, formatting yields `"INV-"` followed by the decimal
digits zero-padded to width 6. -/
theorem c8_invoice_id_roundtrip :
    (∀ t : List Char, hasOcc "BILL-".data t = false →
      (format_invoice_id (String.mk ("BILL-".data ++ t)) =
        String.mk ("INV-".data ++ t)) ∧
      (hasOcc "INV-".data t = false →
        invoice_to_bill_id (format_invoice_id (String.mk ("BILL-".data ++ t))) =
          String.mk ("BILL-".data ++ t))) ∧
    (∀ n : Nat, format_invoice_id_of_num n = "INV-" ++ zfill 6 (toString n)) := by
  constructor
  · intro t hB
    have hfwd : format_invoice_id (String.mk ("BILL-".data ++ t)) =
        String.mk ("INV-".data ++ t) := by
      show String.mk (pyReplaceL "BILL-".data "INV-".data ("BILL-".data ++ t)) =
        String.mk ("INV-".data ++ t)
      rw [pyReplaceL_head_match "BILL-".data "INV-".data t (by decide) hB]
    refine ⟨hfwd, fun hI => ?_⟩
    rw [hfwd]
    show String.mk (pyReplaceL "INV-".data "BILL-".data ("INV-".data ++ t)) =
      String.mk ("BILL-".data ++ t)
    rw [pyReplaceL_head_match "INV-".data "BILL-".data t (by decide) hI]
  · intro n
    rfl

/-- Closed instance of the amended C8 round trip at the id `"BILL-00AB12"`. -/
theorem c8_invoice_id_roundtrip_witness :
    hasOcc "BILL-".data "00AB12".data = false ∧
    hasOcc "INV-".data "00AB12".data = false ∧
    invoice_to_bill_id
      (format_invoice_id (String.mk ("BILL-".data ++ "00AB12".data))) =
      String.mk ("BILL-".data ++ "00AB12".data) :=
  ⟨by decide, by decide,
    (c8_invoice_id_roundtrip.1 "00AB12".data (by decide)).2 (by decide)⟩

/-! ### Relational state

Rows carry the columns the specified operations read or write. -/

/-- Lowercasing as performed by SQL `LOWER` on ASCII status strings. -/
def lowerChar (c : Char) : Char :=
  if 'A' ≤ c ∧ c ≤ 'Z' then Char.ofNat (c.toNat + 32) else c

def lowerStr (s : String) : String :=
  String.mk (s.data.map lowerChar)

structure PatientRow where
  patient_id : String
  first_name : String
  last_name : String
  phone : String
  email : String
deriving DecidableEq

structure VisitRow where
  visit_id : String
  patient_id : String
  doctor_id : Option String
  visit_datetime : DateTime
  status_id : Nat
  notes : String
  check_in_datetime : Option DateTime
  followup_date : Option Nat
deriving DecidableEq

structure BillRow where
  bill_id : String
  visit_id : String
  patient_id : String
  subtotal : ℚ
  tax : ℚ
  amount_total : ℚ
  status : String
  payment_method_id : Option Nat
  payment_date : Option DateTime
  billing_date : DateTime
deriving DecidableEq

structure BillServiceRow where
  service_id : String
  bill_id : String
  service_name : String
  amount : ℚ
  quantity : Nat
deriving DecidableEq

structure PaymentMethodRow where
  method_id : Nat
  name : String
deriving DecidableEq

structure VisitStatusRow where
  status_id : Nat
  name : String
deriving DecidableEq

structure DoctorRow where
  doctor_id : String
  first_name : String
  last_name : String
deriving DecidableEq

structure ServiceRow where
  service_id : String
  name : String
  price : ℚ
deriving DecidableEq

structure DB where
  patients : List PatientRow
  visits : List VisitRow
  bills : List BillRow
  bill_services : List BillServiceRow
  payment_methods : List PaymentMethodRow
  visit_status : List VisitStatusRow
  doctors : List DoctorRow
  services : List ServiceRow
deriving DecidableEq

/-- Model of `ORDER BY f(x) DESC LIMIT 1`: the first row (in table order) carrying the
maximal key. -/
def latestBy {α : Type} (f : α → DateTime) : List α → Option α
  | [] => none
  | x :: rest =>
    some (rest.foldl (fun acc y => if (f acc).ltb (f y) then y else acc) x)

/-! ### `POST /api/invoices` (`create_invoice` in `routes/billing.py`) -/

structure ServiceItem where
  description : String
  quantity : Nat
  unitPrice : ℚ
deriving DecidableEq

structure InvoiceRequest where
  patientId : String
  doctorId : Option String
  chiefComplaint : String
  items : List ServiceItem
deriving DecidableEq

inductive InvoiceResult where
  | merged (bill_id : String)
  | created (visit_id bill_id : String)
  | errPatientIdRequired
  | errItemsRequired
  | errPatientNotFound
deriving DecidableEq

/-- The same-day pending-bill lookup: bills of the patient whose status is
case-insensitively `"pending"` and whose billing date falls on today, joined
(INNER JOIN) to `visits` on `visit_id`, ordered by most recent billing date,
`LIMIT 1`. -/
def existingInvoiceQuery (db : DB) (pid : String) (today : Nat) : Option BillRow :=
  latestBy (fun b => b.billing_date)
    (db.bills.filter (fun b =>
      decide (b.patient_id = pid ∧ lowerStr b.status = "pending" ∧
        b.billing_date.day = today ∧
        ∃ v ∈ db.visits, v.visit_id = b.visit_id)))

/-- Processing of one requested item on the merge path: `LIMIT 1` lookup of a
row of the target bill with the exact service name; on a hit, update that row
(by `service_id`) additively on quantity and last-write-wins on amount;
otherwise insert a new row with a fresh service id. -/
def applyMergeItem (bill_id fresh : String) (svcs : List BillServiceRow)
    (it : ServiceItem) : List BillServiceRow :=
  match svcs.find? (fun s =>
      decide (s.bill_id = bill_id ∧ s.service_name = it.description)) with
  | some ex =>
    svcs.map (fun s =>
      if s.service_id = ex.service_id then
        { s with quantity := ex.quantity + it.quantity, amount := it.unitPrice }
      else s)
  | none =>
    svcs ++ [{ service_id := fresh, bill_id := bill_id,
               service_name := it.description, amount := it.unitPrice,
               quantity := it.quantity }]

/-- The merge-path loop over the requested items, consuming one fresh service
id per item (the source generates one uuid per loop iteration). -/
def applyMergeItems (bill_id : String) (freshSvcIds : Nat → String) :
    List BillServiceRow → List ServiceItem → Nat → List BillServiceRow
  | svcs, [], _ => svcs
  | svcs, it :: rest, k =>
    applyMergeItems bill_id freshSvcIds
      (applyMergeItem bill_id (freshSvcIds k) svcs it) rest (k + 1)

/-- Model of `SELECT SUM(amount * quantity) FROM bill_services WHERE bill_id = %s`. -/
def billSubtotal (svcs : List BillServiceRow) (bill_id : String) : ℚ :=
  ((svcs.filter (fun s => decide (s.bill_id = bill_id))).map
    (fun s => s.amount * (s.quantity : ℚ))).sum

/-- Model of `UPDATE bills SET subtotal, tax, amount_total WHERE bill_id = %s`. -/
def updateBillTotals (bills : List BillRow) (bill_id : String) (subtotal : ℚ) :
    List BillRow :=
  bills.map (fun b =>
    if b.bill_id = bill_id then
      { b with subtotal := subtotal, tax := subtotal * (1 / 10),
               amount_total := subtotal + subtotal * (1 / 10) }
    else b)

/-- The patient's most recent visit, by maximal `visit_datetime`. -/
def mostRecentVisit (db : DB) (pid : String) : Option VisitRow :=
  latestBy (fun v => v.visit_datetime)
    (db.visits.filter (fun v => decide (v.patient_id = pid)))

/-- Doctor resolution on the create path: the request's `doctorId` when truthy,
else the doctor (possibly null) of the patient's most recent visit, else the
fixed default `"DOC-000001"` when the patient has no visit at all. -/
def resolveDoctor (db : DB) (pid : String) (reqDoctor : Option String) :
    Option String :=
  let given : Option String :=
    match reqDoctor with
    | none => none
    | some d => if d = "" then none else some d
  match given with
  | some d => some d
  | none =>
    match mostRecentVisit db pid with
    | some v => v.doctor_id
    | none => some "DOC-000001"

/-- Handler of `POST /api/invoices`.  `now` stands for `NOW()` / `CURDATE()`;
`freshVisitId`, `freshBillId` and `freshSvcIds` stand for the uuid-derived
identifiers generated during the call. -/
def create_invoice (db : DB) (req : InvoiceRequest) (now : DateTime)
    (freshVisitId freshBillId : String) (freshSvcIds : Nat → String) :
    InvoiceResult × DB :=
  if req.patientId = "" then (.errPatientIdRequired, db)
  else if req.items = [] then (.errItemsRequired, db)
  else
    match db.patients.find? (fun p => decide (p.patient_id = req.patientId)) with
    | none => (.errPatientNotFound, db)
    | some _ =>
      match existingInvoiceQuery db req.patientId now.day with
      | some ex =>
        let svcs := applyMergeItems ex.bill_id freshSvcIds db.bill_services req.items 0
        let subtotal := billSubtotal svcs ex.bill_id
        (.merged ex.bill_id,
          { db with bill_services := svcs,
                    bills := updateBillTotals db.bills ex.bill_id subtotal })
      | none =>
        let doctor := resolveDoctor db req.patientId req.doctorId
        let newVisit : VisitRow :=
          { visit_id := freshVisitId, patient_id := req.patientId,
            doctor_id := doctor, visit_datetime := now, status_id := 1,
            notes := req.chiefComplaint, check_in_datetime := none,
            followup_date := none }
        let subtotal := (req.items.map (fun it => (it.quantity : ℚ) * it.unitPrice)).sum
        let tax := subtotal * (1 / 10)
        let newBill : BillRow :=
          { bill_id := freshBillId, visit_id := freshVisitId,
            patient_id := req.patientId, subtotal := subtotal, tax := tax,
            amount_total := subtotal + tax, status := "Pending",
            payment_method_id := none, payment_date := none,
            billing_date := now }
        let newSvcs := req.items.enum.map (fun p =>
          { service_id := freshSvcIds p.1, bill_id := freshBillId,
            service_name := p.2.description, amount := p.2.unitPrice,
            quantity := p.2.quantity : BillServiceRow })
        (.created freshVisitId freshBillId,
          { db with visits := db.visits ++ [newVisit],
                    bills := db.bills ++ [newBill],
                    bill_services := db.bill_services ++ newSvcs })

/-! ### `PATCH /api/invoices/<invoice_id>` (`update_invoice`) -/

/-- The three optional body fields of the PATCH request.  `none` models an
absent (or JSON-null) key; `nonEmptyBody` models the truthiness of the parsed
JSON object (`if not data`). -/
structure UpdateInvoiceRequest where
  nonEmptyBody : Bool
  status : Option String
  paymentMethod : Option String
  paidDate : Option DateTime
deriving DecidableEq

inductive UpdateResult where
  | ok
  | errNoData
  | errNoFields
deriving DecidableEq

/-- Python truthiness of an optional string field. -/
def truthyStr : Option String → Bool
  | none => false
  | some s => decide (s ≠ "")

/-- Payment-method resolution: exact name lookup, attempted only when the
field is truthy. -/
def pmLookup (db : DB) (req : UpdateInvoiceRequest) : Option Nat :=
  if truthyStr req.paymentMethod then
    match db.payment_methods.find? (fun m =>
        decide (some m.name = req.paymentMethod)) with
    | some m => some m.method_id
    | none => none
  else none

/-- The resolved payment-method id as tested by `if payment_method_id:`
(a resolved id of 0 would be falsy in Python). -/
def pmTruthy (db : DB) (req : UpdateInvoiceRequest) : Option Nat :=
  match pmLookup db req with
  | some m => if m ≠ 0 then some m else none
  | none => none

/-- The `elif data.get('status') == 'paid' or data.get('status') == 'Paid'`
branch guard: stamp `payment_date = NOW()`. -/
def setPaidNowFlag (req : UpdateInvoiceRequest) : Bool :=
  !req.paidDate.isSome &&
    (decide (req.status = some "paid") || decide (req.status = some "Paid"))

/-- The `update_fields` list stays empty exactly when no clause was appended. -/
def noFieldsToUpdate (db : DB) (req : UpdateInvoiceRequest) : Bool :=
  !truthyStr req.status && (pmTruthy db req).isNone &&
    !req.paidDate.isSome && !setPaidNowFlag req

/-- The `SET` clauses applied to the targeted bill row. -/
def applyInvoiceUpdate (db : DB) (req : UpdateInvoiceRequest) (now : DateTime)
    (b : BillRow) : BillRow :=
  { b with
    status :=
      match req.status with
      | some s => if s ≠ "" then s else b.status
      | none => b.status,
    payment_method_id :=
      match pmTruthy db req with
      | some m => some m
      | none => b.payment_method_id,
    payment_date :=
      if req.paidDate.isSome then req.paidDate
      else if setPaidNowFlag req then some now
      else b.payment_date }

def update_invoice (db : DB) (invoice_id : String) (req : UpdateInvoiceRequest)
    (now : DateTime) : UpdateResult × DB :=
  if req.nonEmptyBody = false then (.errNoData, db)
  else if noFieldsToUpdate db req then (.errNoFields, db)
  else
    (.ok, { db with bills := db.bills.map (fun b =>
      if b.bill_id = pyReplace invoice_id "INV-" "BILL-" then
        applyInvoiceUpdate db req now b else b) })

/-! ### `PATCH /api/patients/<patient_id>/status` (`update_patient_status`) -/

inductive StatusResult where
  | ok
  | errStatusRequired
  | errInvalidStatus
  | errNoVisit
deriving DecidableEq

/-- The `UPDATE visits SET status_id = %s, check_in_datetime = CASE ... END
WHERE visit_id = %s` statement, applied to one row. -/
def applyStatusUpdate (sid : Nat) (vid : String) (now : DateTime)
    (w : VisitRow) : VisitRow :=
  if w.visit_id = vid then
    { w with status_id := sid,
             check_in_datetime :=
               if sid = 2 ∧ w.check_in_datetime = none
               then some now else w.check_in_datetime }
  else w

def update_patient_status (db : DB) (patient_id : String)
    (newStatus : Option String) (now : DateTime) : StatusResult × DB :=
  match newStatus with
  | none => (.errStatusRequired, db)
  | some st =>
    if ¬ (st = "waiting" ∨ st = "checked-in" ∨ st = "completed") then
      (.errInvalidStatus, db)
    else
      match db.visit_status.find? (fun r => decide (r.name = st)) with
      | none => (.errInvalidStatus, db)
      | some row =>
        match mostRecentVisit db patient_id with
        | none => (.errNoVisit, db)
        | some v =>
          let newVisits := db.visits.map (applyStatusUpdate row.status_id v.visit_id now)
          (.ok, { db with visits := newVisits })

/-- A sequence of status-update calls (patient id, request body status, call
instant), applied in order. -/
def runStatusCalls (db : DB) :
    List (String × Option String × DateTime) → DB
  | [] => db
  | (pid, st, now) :: rest =>
    runStatusCalls (update_patient_status db pid st now).2 rest

/-! ### `GET /api/patients/<patient_id>/followup-check`
(`check_patient_followup`) -/

def check_patient_followup (db : DB) (patient_id : String) (today : Nat) :
    Option VisitRow :=
  latestBy (fun v => v.visit_datetime)
    (db.visits.filter (fun v =>
      decide (v.patient_id = patient_id ∧ v.followup_date = some today)))

/-! ### `POST /api/patients` (`create_patient` in `routes/patients.py`),
restricted to the columns modelled here -/

structure RegisterRequest where
  firstName : String
  lastName : String
  dateOfBirth : String
  gender : String
  phone : String
  email : String
  medicalNotes : String
  assignedDoctor : Option String
  hasFollowUp : Bool
  followUpDate : Option Nat
deriving DecidableEq

inductive RegisterResult where
  | ok
  | errMissingField
deriving DecidableEq

/-- Python `name.split(' ', 1)` restricted to the two-part case used by the
source: the text before the first space and the text after it. -/
def splitFirstSpace : List Char → Option (List Char × List Char)
  | [] => none
  | c :: rest =>
    if c = ' ' then some ([], rest)
    else
      match splitFirstSpace rest with
      | some (a, b) => some (c :: a, b)
      | none => none

/-- Doctor lookup during registration: split the assigned doctor's display
name at the first space and look the pair up in `doctors`; any failure leaves
the visit's doctor null. -/
def resolveAssignedDoctor (db : DB) (assigned : Option String) : Option String :=
  match assigned with
  | none => none
  | some nm =>
    if nm = "" then none
    else
      match splitFirstSpace nm.data with
      | some (fn, ln) =>
        match db.doctors.find? (fun d =>
            decide (d.first_name = String.mk fn ∧ d.last_name = String.mk ln)) with
        | some d => some d.doctor_id
        | none => none
      | none => none

/-- Model of `SELECT price FROM services WHERE service_id = 'consultation' LIMIT 1`,
with the fixed fallback price 150.00. -/
def consultationPriceValue (db : DB) : ℚ :=
  match db.services.find? (fun s => decide (s.service_id = "consultation")) with
  | some s => s.price
  | none => 150

def create_patient (db : DB) (req : RegisterRequest) (now : DateTime)
    (freshPatientId freshVisitId freshBillId freshServiceId : String) :
    RegisterResult × DB :=
  if req.firstName = "" ∨ req.lastName = "" ∨ req.dateOfBirth = "" ∨
      req.gender = "" ∨ req.phone = "" then
    (.errMissingField, db)
  else
    let doctor := resolveAssignedDoctor db req.assignedDoctor
    let followup := if req.hasFollowUp then req.followUpDate else none
    let newPatient : PatientRow :=
      { patient_id := freshPatientId, first_name := req.firstName,
        last_name := req.lastName, phone := req.phone, email := req.email }
    let newVisit : VisitRow :=
      { visit_id := freshVisitId, patient_id := freshPatientId,
        doctor_id := doctor, visit_datetime := now, status_id := 1,
        notes := req.medicalNotes, check_in_datetime := none,
        followup_date := followup }
    let price := consultationPriceValue db
    let subtotal := price
    let tax := subtotal * (1 / 10)
    let newBill : BillRow :=
      { bill_id := freshBillId, visit_id := freshVisitId,
        patient_id := freshPatientId, subtotal := subtotal, tax := tax,
        amount_total := subtotal + tax, status := "Pending",
        payment_method_id := none, payment_date := none, billing_date := now }
    let newSvc : BillServiceRow :=
      { service_id := freshServiceId, bill_id := freshBillId,
        service_name := "Consultation Fee", amount := price, quantity := 1 }
    (.ok,
      { db with patients := db.patients ++ [newPatient],
                visits := db.visits ++ [newVisit],
                bills := db.bills ++ [newBill],
                bill_services := db.bill_services ++ [newSvc] })

/-! ### Properties of the `ORDER BY ... DESC LIMIT 1` model -/

theorem foldl_latest_spec {α : Type} (f : α → DateTime) (l : List α) :
    ∀ acc : α,
      (l.foldl (fun a y => if (f a).ltb (f y) then y else a) acc = acc ∨
        l.foldl (fun a y => if (f a).ltb (f y) then y else a) acc ∈ l) ∧
      (f acc).leb
        (f (l.foldl (fun a y => if (f a).ltb (f y) then y else a) acc)) = true ∧
      (∀ y ∈ l,
        (f y).leb
          (f (l.foldl (fun a y => if (f a).ltb (f y) then y else a) acc)) = true) := by
  induction l with
  | nil =>
    intro acc
    exact ⟨Or.inl rfl, DateTime.leb_refl _, by simp⟩
  | cons x xs ih =>
    intro acc
    simp only [List.foldl_cons]
    by_cases h : (f acc).ltb (f x) = true
    · rw [if_pos h]
      obtain ⟨hmem, hacc, hall⟩ := ih x
      refine ⟨?_, ?_, ?_⟩
      · rcases hmem with h1 | h1
        · exact Or.inr (by rw [h1]; exact List.mem_cons_self x xs)
        · exact Or.inr (List.mem_cons_of_mem x h1)
      · exact DateTime.leb_trans (DateTime.leb_of_ltb h) hacc
      · intro y hy
        rcases List.mem_cons.mp hy with rfl | hy'
        · exact hacc
        · exact hall y hy'
    · rw [if_neg h]
      obtain ⟨hmem, hacc, hall⟩ := ih acc
      refine ⟨?_, hacc, ?_⟩
      · rcases hmem with h1 | h1
        · exact Or.inl h1
        · exact Or.inr (List.mem_cons_of_mem x h1)
      · intro y hy
        rcases List.mem_cons.mp hy with rfl | hy'
        · exact DateTime.leb_trans
            (DateTime.leb_of_not_ltb (Bool.eq_false_iff.mpr h)) hacc
        · exact hall y hy'

theorem latestBy_spec {α : Type} (f : α → DateTime) (l : List α) (m : α)
    (h : latestBy f l = some m) :
    m ∈ l ∧ ∀ y ∈ l, (f y).leb (f m) = true := by
  cases l with
  | nil => exact absurd h (by simp [latestBy])
  | cons x xs =>
    have hm : xs.foldl (fun a y => if (f a).ltb (f y) then y else a) x = m := by
      simpa [latestBy] using h
    obtain ⟨hmem, hacc, hall⟩ := foldl_latest_spec f xs x
    rw [hm] at hmem hacc hall
    refine ⟨?_, ?_⟩
    · rcases hmem with h1 | h1
      · rw [h1]; exact List.mem_cons_self x xs
      · exact List.mem_cons_of_mem x h1
    · intro y hy
      rcases List.mem_cons.mp hy with rfl | hy'
      · exact hacc
      · exact hall y hy'

theorem latestBy_eq_none {α : Type} (f : α → DateTime) (l : List α) :
    latestBy f l = none ↔ l = [] := by
  cases l <;> simp [latestBy]

theorem latestBy_ne_none {α : Type} (f : α → DateTime) (l : List α)
    (h : l ≠ []) : latestBy f l ≠ none := by
  intro hcon
  exact h ((latestBy_eq_none f l).mp hcon)

/-- C10: when at least one visit of the patient has its follow-up date equal
to today, `check_patient_followup` returns a qualifying visit whose
`visit_datetime` is maximal among all qualifying visits. -/
theorem c10_followup_returns_latest (db : DB) (pid : String) (today : Nat)
    (hex : ∃ v ∈ db.visits, v.patient_id = pid ∧ v.followup_date = some today) :
    ∃ w, check_patient_followup db pid today = some w ∧
      w.patient_id = pid ∧ w.followup_date = some today ∧
      ∀ u ∈ db.visits, u.patient_id = pid → u.followup_date = some today →
        u.visit_datetime.leb w.visit_datetime = true := by
  obtain ⟨v, hv, hvp, hvf⟩ := hex
  have hvl : v ∈ db.visits.filter (fun v =>
      decide (v.patient_id = pid ∧ v.followup_date = some today)) := by
    rw [List.mem_filter]
    exact ⟨hv, by simp [hvp, hvf]⟩
  have hne : db.visits.filter (fun v =>
      decide (v.patient_id = pid ∧ v.followup_date = some today)) ≠ [] := by
    intro hcon
    rw [hcon] at hvl
    exact List.not_mem_nil v hvl
  cases hm : latestBy (fun v => v.visit_datetime)
      (db.visits.filter (fun v =>
        decide (v.patient_id = pid ∧ v.followup_date = some today))) with
  | none => exact absurd hm (latestBy_ne_none _ _ hne)
  | some w =>
    obtain ⟨hwl, hall⟩ := latestBy_spec _ _ _ hm
    rw [List.mem_filter, decide_eq_true_eq] at hwl
    refine ⟨w, ?_, hwl.2.1, hwl.2.2, ?_⟩
    · rw [check_patient_followup, hm]
    · intro u hu hup huf
      refine hall u ?_
      rw [List.mem_filter]
      exact ⟨hu, by simp [hup, huf]⟩

def dbC10 : DB :=
  ⟨[⟨"PAT-1", "Ana", "Cruz", "", ""⟩],
   [⟨"VIS-1", "PAT-1", none, ⟨5, 10⟩, 3, "", none, some 7⟩,
    ⟨"VIS-2", "PAT-1", none, ⟨6, 0⟩, 3, "", none, some 7⟩],
   [], [], [], [], [], []⟩

/-- Closed instance of C10: with two visits of `PAT-1` carrying a follow-up
on day 7, the lookup returns a qualifying visit at least as recent as both. -/
theorem c10_followup_returns_latest_witness :
    (∃ v ∈ dbC10.visits, v.patient_id = "PAT-1" ∧ v.followup_date = some 7) ∧
    ∃ w, check_patient_followup dbC10 "PAT-1" 7 = some w ∧
      w.patient_id = "PAT-1" ∧ w.followup_date = some 7 ∧
      ∀ u ∈ dbC10.visits, u.patient_id = "PAT-1" → u.followup_date = some 7 →
        u.visit_datetime.leb w.visit_datetime = true :=
  ⟨by decide, c10_followup_returns_latest dbC10 "PAT-1" 7 (by decide)⟩

/-! ### C1: merge-or-create decision of `POST /api/invoices` -/

/-- A bill of the patient whose status is case-insensitively `"pending"` and
whose billing date falls on today. -/
def pendingSameDayPred (pid : String) (today : Nat) (b : BillRow) : Prop :=
  b.patient_id = pid ∧ lowerStr b.status = "pending" ∧ b.billing_date.day = today

instance (pid : String) (today : Nat) (b : BillRow) :
    Decidable (pendingSameDayPred pid today b) := by
  unfold pendingSameDayPred
  infer_instance

theorem existingInvoiceQuery_isSome_of_pending (db : DB) (pid : String)
    (today : Nat)
    (hRI : ∀ b ∈ db.bills, pendingSameDayPred pid today b →
      ∃ v ∈ db.visits, v.visit_id = b.visit_id)
    (hex : ∃ b ∈ db.bills, pendingSameDayPred pid today b) :
    existingInvoiceQuery db pid today ≠ none := by
  obtain ⟨b, hb, hbp⟩ := hex
  have hbf : b ∈ db.bills.filter (fun b =>
      decide (b.patient_id = pid ∧ lowerStr b.status = "pending" ∧
        b.billing_date.day = today ∧ ∃ v ∈ db.visits, v.visit_id = b.visit_id)) := by
    rw [List.mem_filter, decide_eq_true_eq]
    exact ⟨hb, hbp.1, hbp.2.1, hbp.2.2, hRI b hb hbp⟩
  have hne : db.bills.filter (fun b =>
      decide (b.patient_id = pid ∧ lowerStr b.status = "pending" ∧
        b.billing_date.day = today ∧ ∃ v ∈ db.visits, v.visit_id = b.visit_id)) ≠ [] := by
    intro hcon
    rw [hcon] at hbf
    exact List.not_mem_nil b hbf
  exact latestBy_ne_none _ _ hne

theorem existingInvoiceQuery_eq_none_of_no_pending (db : DB) (pid : String)
    (today : Nat)
    (hno : ¬ ∃ b ∈ db.bills, pendingSameDayPred pid today b) :
    existingInvoiceQuery db pid today = none := by
  rw [existingInvoiceQuery]
  have h : db.bills.filter (fun b =>
      decide (b.patient_id = pid ∧ lowerStr b.status = "pending" ∧
        b.billing_date.day = today ∧ ∃ v ∈ db.visits, v.visit_id = b.visit_id)) = [] := by
    rw [List.filter_eq_nil_iff]
    intro b hb
    rw [decide_eq_true_eq]
    intro hcon
    exact hno ⟨b, hb, hcon.1, hcon.2.1, hcon.2.2.1⟩
  rw [h]
  rfl

theorem updateBillTotals_bill_ids (bills : List BillRow) (bid : String)
    (sub : ℚ) :
    (updateBillTotals bills bid sub).map (fun b => b.bill_id) =
      bills.map (fun b => b.bill_id) := by
  rw [updateBillTotals, List.map_map]
  refine List.map_congr_left ?_
  intro b _
  by_cases h : b.bill_id = bid <;> simp [h]

def dbC1 : DB := ⟨[⟨"PAT-1", "Ana", "Cruz", "", ""⟩], [], [], [], [], [], [], []⟩

def reqC1 : InvoiceRequest :=
  ⟨"PAT-1", none, "", [⟨"Blood Test", 1, 75⟩, ⟨"X-Ray", 2, 50⟩]⟩

def sidsA : Nat → String := fun k => "SVC-A" ++ toString k

def sidsB : Nat → String := fun k => "SVC-B" ++ toString k

/-- The state after submitting `reqC1` once against the fresh patient. -/
def dbC1' : DB := (create_invoice dbC1 reqC1 ⟨10, 100⟩ "VIS-A" "BILL-A" sidsA).2

/-- C1: on a request for an existing patient with a non-empty items list,
assuming every same-day pending bill of the patient references an existing
visit: if some same-day pending bill exists the call takes the merge path
(no visit is created and the set of bill ids is unchanged), and otherwise it
takes the create path (exactly one visit with status waiting and one bill with
status `"Pending"` are appended).  Moreover, submitting the same two items
twice on the same day against a patient with no prior bills yields one bill
with merged quantities, not two bills. -/
theorem c1_merge_or_create (db : DB) (req : InvoiceRequest) (now : DateTime)
    (vid bid : String) (sids : Nat → String)
    (hpid : req.patientId ≠ "") (hitems : req.items ≠ [])
    (hpat : ∃ p ∈ db.patients, p.patient_id = req.patientId)
    (hRI : ∀ b ∈ db.bills, pendingSameDayPred req.patientId now.day b →
      ∃ v ∈ db.visits, v.visit_id = b.visit_id) :
    ((∃ b ∈ db.bills, pendingSameDayPred req.patientId now.day b) →
      (∃ bId, (create_invoice db req now vid bid sids).1 = .merged bId) ∧
      (create_invoice db req now vid bid sids).2.visits = db.visits ∧
      (create_invoice db req now vid bid sids).2.bills.map (fun b => b.bill_id) =
        db.bills.map (fun b => b.bill_id)) ∧
    ((¬ ∃ b ∈ db.bills, pendingSameDayPred req.patientId now.day b) →
      (create_invoice db req now vid bid sids).1 = .created vid bid ∧
      (create_invoice db req now vid bid sids).2.visits.length =
        db.visits.length + 1 ∧
      (create_invoice db req now vid bid sids).2.bills.length =
        db.bills.length + 1 ∧
      (∃ v ∈ (create_invoice db req now vid bid sids).2.visits,
        v.visit_id = vid ∧ v.status_id = 1) ∧
      (∃ b ∈ (create_invoice db req now vid bid sids).2.bills,
        b.bill_id = bid ∧ b.status = "Pending")) ∧
    ((create_invoice dbC1 reqC1 ⟨10, 100⟩ "VIS-A" "BILL-A" sidsA).1 =
        .created "VIS-A" "BILL-A" ∧
      (create_invoice dbC1' reqC1 ⟨10, 200⟩ "VIS-B" "BILL-B" sidsB).1 =
        .merged "BILL-A" ∧
      (create_invoice dbC1' reqC1 ⟨10, 200⟩ "VIS-B" "BILL-B" sidsB).2.bills.length = 1 ∧
      (create_invoice dbC1' reqC1 ⟨10, 200⟩ "VIS-B" "BILL-B" sidsB).2.bill_services.map
          (fun s => (s.service_name, s.quantity)) =
        [("Blood Test", 2), ("X-Ray", 4)]) := by
  have hfind : (db.patients.find? (fun p =>
      decide (p.patient_id = req.patientId))).isSome := by
    rw [List.find?_isSome]
    obtain ⟨p, hp, hpe⟩ := hpat
    exact ⟨p, hp, by simp [hpe]⟩
  obtain ⟨p0, hp0⟩ := Option.isSome_iff_exists.mp hfind
  refine ⟨?_, ?_, by decide, by decide, by decide, by decide⟩
  · intro hex
    have hq := existingInvoiceQuery_isSome_of_pending db req.patientId now.day hRI hex
    obtain ⟨ex, hexq⟩ := Option.ne_none_iff_exists'.mp hq
    rw [create_invoice, if_neg hpid, if_neg hitems, hp0, hexq]
    exact ⟨⟨ex.bill_id, rfl⟩, rfl, updateBillTotals_bill_ids _ _ _⟩
  · intro hno
    have hq := existingInvoiceQuery_eq_none_of_no_pending db req.patientId now.day hno
    rw [create_invoice, if_neg hpid, if_neg hitems, hp0, hq]
    refine ⟨rfl, by simp, by simp, ?_, ?_⟩
    · refine ⟨_, List.mem_append_right _ (List.mem_singleton_self _), rfl, rfl⟩
    · refine ⟨_, List.mem_append_right _ (List.mem_singleton_self _), rfl, rfl⟩

/-! ### C9: the inner join hides pending bills with dangling visit ids -/

/-- C9: when every same-day pending bill of the patient has a `visit_id` that
references no existing visit row, the decision query sees nothing (the INNER
JOIN drops those bills) and the call opens a brand-new visit and bill although
a same-day pending bill exists. -/
theorem c9_dangling_pending_bill_invisible (db : DB) (req : InvoiceRequest)
    (now : DateTime) (vid bid : String) (sids : Nat → String)
    (hpid : req.patientId ≠ "") (hitems : req.items ≠ [])
    (hpat : ∃ p ∈ db.patients, p.patient_id = req.patientId)
    (_hex : ∃ b ∈ db.bills, pendingSameDayPred req.patientId now.day b)
    (hdangle : ∀ b ∈ db.bills, pendingSameDayPred req.patientId now.day b →
      ∀ v ∈ db.visits, v.visit_id ≠ b.visit_id) :
    (create_invoice db req now vid bid sids).1 = .created vid bid ∧
    (create_invoice db req now vid bid sids).2.visits.length =
      db.visits.length + 1 ∧
    (create_invoice db req now vid bid sids).2.bills.length =
      db.bills.length + 1 := by
  have hfind : (db.patients.find? (fun p =>
      decide (p.patient_id = req.patientId))).isSome := by
    rw [List.find?_isSome]
    obtain ⟨p, hp, hpe⟩ := hpat
    exact ⟨p, hp, by simp [hpe]⟩
  obtain ⟨p0, hp0⟩ := Option.isSome_iff_exists.mp hfind
  have hq : existingInvoiceQuery db req.patientId now.day = none := by
    rw [existingInvoiceQuery]
    have h : db.bills.filter (fun b =>
        decide (b.patient_id = req.patientId ∧ lowerStr b.status = "pending" ∧
          b.billing_date.day = now.day ∧
          ∃ v ∈ db.visits, v.visit_id = b.visit_id)) = [] := by
      rw [List.filter_eq_nil_iff]
      intro b hb
      rw [decide_eq_true_eq]
      intro hcon
      obtain ⟨v, hv, hve⟩ := hcon.2.2.2
      exact hdangle b hb ⟨hcon.1, hcon.2.1, hcon.2.2.1⟩ v hv hve
    rw [h]
    rfl
  rw [create_invoice, if_neg hpid, if_neg hitems, hp0, hq]
  exact ⟨rfl, by simp, by simp⟩

def dbC9 : DB :=
  ⟨[⟨"PAT-1", "Ana", "Cruz", "", ""⟩], [],
   [⟨"BILL-0", "VIS-GONE", "PAT-1", 100, 10, 110, "Pending", none, none, ⟨10, 50⟩⟩],
   [], [], [], [], []⟩

/-- Closed instance of C9: `PAT-1` has a same-day pending bill whose
`visit_id` `"VIS-GONE"` matches no visit row, and the call still takes the
create path. -/
theorem c9_dangling_pending_bill_invisible_witness :
    (∃ b ∈ dbC9.bills, pendingSameDayPred "PAT-1" 10 b) ∧
    (∀ b ∈ dbC9.bills, pendingSameDayPred "PAT-1" 10 b →
      ∀ v ∈ dbC9.visits, v.visit_id ≠ b.visit_id) ∧
    (create_invoice dbC9 ⟨"PAT-1", none, "", [⟨"Blood Test", 1, 75⟩]⟩ ⟨10, 60⟩
      "VIS-N" "BILL-N" sidsA).1 = .created "VIS-N" "BILL-N" ∧
    (create_invoice dbC9 ⟨"PAT-1", none, "", [⟨"Blood Test", 1, 75⟩]⟩ ⟨10, 60⟩
      "VIS-N" "BILL-N" sidsA).2.bills.length = 2 :=
  ⟨by decide, by decide,
   (c9_dangling_pending_bill_invisible dbC9
      ⟨"PAT-1", none, "", [⟨"Blood Test", 1, 75⟩]⟩ ⟨10, 60⟩ "VIS-N" "BILL-N"
      sidsA (by decide) (by decide) (by decide) (by decide) (by decide)).1,
   by decide⟩

/-! ### C4: doctor resolution on the create path -/

def dbC4 : DB :=
  ⟨[⟨"PAT-1", "Ana", "Cruz", "", ""⟩],
   [⟨"VIS-1", "PAT-1", none, ⟨9, 30⟩, 3, "", none, none⟩],
   [], [], [], [], [], []⟩

/-- C4 counterexample: the caller supplies no `doctorId` and the patient's
most recent visit carries no doctor, yet the created visit's doctor is null,
not the default identifier `"DOC-000001"`: the fallback only fires when the
patient has no visit at all. -/
theorem c4_default_doctor_counterexample :
    (mostRecentVisit dbC4 "PAT-1" =
      some ⟨"VIS-1", "PAT-1", none, ⟨9, 30⟩, 3, "", none, none⟩) ∧
    (create_invoice dbC4 ⟨"PAT-1", none, "", [⟨"Blood Test", 1, 75⟩]⟩ ⟨10, 60⟩
      "VIS-N" "BILL-N" sidsA).1 = .created "VIS-N" "BILL-N" ∧
    (create_invoice dbC4 ⟨"PAT-1", none, "", [⟨"Blood Test", 1, 75⟩]⟩ ⟨10, 60⟩
      "VIS-N" "BILL-N" sidsA).2.visits.map (fun v => (v.visit_id, v.doctor_id)) =
      [("VIS-1", none), ("VIS-N", none)] ∧
    resolveDoctor dbC4 "PAT-1" none ≠ some "DOC-000001" := by
  refine ⟨by decide, by decide, by decide, by decide⟩

/-- C4 (amended): on the create path the new visit's doctor is
`resolveDoctor`, which yields the caller-supplied `doctorId` when it is
present and non-empty, else the doctor field of the patient's most recent
visit — copied even when that field is null — and the fixed default
`"DOC-000001"` only when the patient has no visit at all. -/
theorem c4_doctor_resolution (db : DB) (req : InvoiceRequest) (now : DateTime)
    (vid bid : String) (sids : Nat → String)
    (hpid : req.patientId ≠ "") (hitems : req.items ≠ [])
    (hpat : ∃ p ∈ db.patients, p.patient_id = req.patientId)
    (hq : existingInvoiceQuery db req.patientId now.day = none) :
    (∃ w ∈ (create_invoice db req now vid bid sids).2.visits,
      w.visit_id = vid ∧
      w.doctor_id = resolveDoctor db req.patientId req.doctorId) ∧
    (∀ d, req.doctorId = some d → d ≠ "" →
      resolveDoctor db req.patientId req.doctorId = some d) ∧
    ((req.doctorId = none ∨ req.doctorId = some "") →
      ∀ v, mostRecentVisit db req.patientId = some v →
        resolveDoctor db req.patientId req.doctorId = v.doctor_id) ∧
    ((req.doctorId = none ∨ req.doctorId = some "") →
      mostRecentVisit db req.patientId = none →
        resolveDoctor db req.patientId req.doctorId = some "DOC-000001") := by
  have hfind : (db.patients.find? (fun p =>
      decide (p.patient_id = req.patientId))).isSome := by
    rw [List.find?_isSome]
    obtain ⟨p, hp, hpe⟩ := hpat
    exact ⟨p, hp, by simp [hpe]⟩
  obtain ⟨p0, hp0⟩ := Option.isSome_iff_exists.mp hfind
  refine ⟨?_, ?_, ?_, ?_⟩
  · rw [create_invoice, if_neg hpid, if_neg hitems, hp0, hq]
    exact ⟨_, List.mem_append_right _ (List.mem_singleton_self _), rfl, rfl⟩
  · intro d hd hdne
    simp [resolveDoctor, hd, hdne]
  · intro hfalsy v hv
    rcases hfalsy with h | h <;> simp [resolveDoctor, h, hv]
  · intro hfalsy hv
    rcases hfalsy with h | h <;> simp [resolveDoctor, h, hv]

/-- Closed instance of the amended C4 at a patient whose only visit has a
null doctor. -/
theorem c4_doctor_resolution_witness :
    (existingInvoiceQuery dbC4 "PAT-1" 10 = none) ∧
    (∃ w ∈ (create_invoice dbC4 ⟨"PAT-1", none, "", [⟨"Blood Test", 1, 75⟩]⟩
        ⟨10, 60⟩ "VIS-N" "BILL-N" sidsA).2.visits,
      w.visit_id = "VIS-N" ∧
      w.doctor_id = resolveDoctor dbC4 "PAT-1" none) :=
  ⟨by decide,
   (c4_doctor_resolution dbC4 ⟨"PAT-1", none, "", [⟨"Blood Test", 1, 75⟩]⟩
      ⟨10, 60⟩ "VIS-N" "BILL-N" sidsA (by decide) (by decide) (by decide)
      (by decide)).1⟩

/-! ### C5: stamping of the payment date on `PATCH /api/invoices/<id>` -/

def dbC5 : DB :=
  ⟨[⟨"PAT-1", "Ana", "Cruz", "", ""⟩], [],
   [⟨"BILL-1", "VIS-1", "PAT-1", 100, 10, 110, "Pending", none, none, ⟨10, 0⟩⟩],
   [], [], [], [], []⟩

/-- C5 counterexample: setting status `"PAID"` (uppercase) with no explicit
`paidDate` updates the bill's status but does not stamp the payment date —
the source compares the status against the exact strings `'paid'` and
`'Paid'` only, not case-insensitively. -/
theorem c5_paid_casing_counterexample :
    (update_invoice dbC5 "INV-1" ⟨true, some "PAID", none, none⟩ ⟨10, 50⟩).1 =
      .ok ∧
    (update_invoice dbC5 "INV-1" ⟨true, some "PAID", none, none⟩
        ⟨10, 50⟩).2.bills.map (fun b => (b.bill_id, b.status, b.payment_date)) =
      [("BILL-1", "PAID", (none : Option DateTime))] := by
  refine ⟨by decide, by decide⟩

/-- C5 (amended): when the status is set to exactly `"paid"` or `"Paid"` and
no explicit `paidDate` is supplied, the targeted bill's payment date is set to
the current instant; when an explicit `paidDate` is supplied, that value is
stored instead. -/
theorem c5_paid_payment_date (db : DB) (inv : String)
    (req : UpdateInvoiceRequest) (now : DateTime)
    (hbody : req.nonEmptyBody = true) :
    ((req.status = some "paid" ∨ req.status = some "Paid") →
      req.paidDate = none →
      (update_invoice db inv req now).1 = .ok ∧
      ∀ b ∈ (update_invoice db inv req now).2.bills,
        b.bill_id = pyReplace inv "INV-" "BILL-" → b.payment_date = some now) ∧
    (∀ d, req.paidDate = some d →
      (update_invoice db inv req now).1 = .ok ∧
      ∀ b ∈ (update_invoice db inv req now).2.bills,
        b.bill_id = pyReplace inv "INV-" "BILL-" → b.payment_date = some d) := by
  constructor
  · intro hst hpd
    have hts : truthyStr req.status = true := by
      rcases hst with h | h <;> simp [truthyStr, h]
    have hnf : noFieldsToUpdate db req = false := by
      simp [noFieldsToUpdate, hts]
    have hrw : update_invoice db inv req now =
        (.ok, { db with bills := db.bills.map (fun b =>
          if b.bill_id = pyReplace inv "INV-" "BILL-" then
            applyInvoiceUpdate db req now b else b) }) := by
      rw [update_invoice, if_neg (by simp [hbody])]
      simp only [hnf, Bool.false_eq_true, if_false]
    refine ⟨by rw [hrw], ?_⟩
    intro b hb hbid
    rw [hrw] at hb
    simp only [List.mem_map] at hb
    obtain ⟨a, _, hfa⟩ := hb
    by_cases hc : a.bill_id = pyReplace inv "INV-" "BILL-"
    · rw [if_pos hc] at hfa
      rw [← hfa]
      have hflag : setPaidNowFlag req = true := by
        rcases hst with h | h <;> simp [setPaidNowFlag, hpd, h]
      simp [applyInvoiceUpdate, hpd, hflag]
    · rw [if_neg hc] at hfa
      rw [← hfa] at hbid
      exact absurd hbid hc
  · intro d hpd
    have hps : req.paidDate.isSome = true := by simp [hpd]
    have hnf : noFieldsToUpdate db req = false := by
      simp [noFieldsToUpdate, hps]
    have hrw : update_invoice db inv req now =
        (.ok, { db with bills := db.bills.map (fun b =>
          if b.bill_id = pyReplace inv "INV-" "BILL-" then
            applyInvoiceUpdate db req now b else b) }) := by
      rw [update_invoice, if_neg (by simp [hbody])]
      simp only [hnf, Bool.false_eq_true, if_false]
    refine ⟨by rw [hrw], ?_⟩
    intro b hb hbid
    rw [hrw] at hb
    simp only [List.mem_map] at hb
    obtain ⟨a, _, hfa⟩ := hb
    by_cases hc : a.bill_id = pyReplace inv "INV-" "BILL-"
    · rw [if_pos hc] at hfa
      rw [← hfa]
      simp [applyInvoiceUpdate, hps, hpd]
    · rw [if_neg hc] at hfa
      rw [← hfa] at hbid
      exact absurd hbid hc

/-- Closed instance of the amended C5: status `"paid"` with no explicit paid
date stamps the payment date to the call instant. -/
theorem c5_paid_payment_date_witness :
    (update_invoice dbC5 "INV-1" ⟨true, some "paid", none, none⟩ ⟨10, 50⟩).1 =
      .ok ∧
    ∀ b ∈ (update_invoice dbC5 "INV-1" ⟨true, some "paid", none, none⟩
        ⟨10, 50⟩).2.bills,
      b.bill_id = pyReplace "INV-1" "INV-" "BILL-" →
        b.payment_date = some ⟨10, 50⟩ :=
  (c5_paid_payment_date dbC5 "INV-1" ⟨true, some "paid", none, none⟩ ⟨10, 50⟩
    rfl).1 (Or.inl rfl) rfl

/-! ### C6: the "no fields to update" guard -/

def dbC6 : DB := ⟨[], [], [], [], [⟨1, "Cash"⟩], [], [], []⟩

/-- C6 counterexample: a request whose only supplied field is a
`paymentMethod` name that resolves to no payment method is rejected with the
"no fields to update" error, although one of the three optional fields is
present — the silent skip of an unresolvable name is not error-free when it
leaves no field to update. -/
theorem c6_no_fields_counterexample :
    (update_invoice dbC6 "INV-1" ⟨true, none, some "GCash", none⟩ ⟨10, 0⟩).1 =
      .errNoFields ∧
    (⟨true, none, some "GCash", none⟩ : UpdateInvoiceRequest).paymentMethod ≠
      none := by
  refine ⟨by decide, by decide⟩

theorem pmTruthy_eq_none_iff (db : DB) (req : UpdateInvoiceRequest)
    (hpm_pos : ∀ m ∈ db.payment_methods, m.method_id ≠ 0) :
    pmTruthy db req = none ↔
      (truthyStr req.paymentMethod = false ∨
        db.payment_methods.find? (fun m =>
          decide (some m.name = req.paymentMethod)) = none) := by
  constructor
  · intro h
    by_cases ht : truthyStr req.paymentMethod = true
    · right
      cases hf : db.payment_methods.find? (fun m =>
          decide (some m.name = req.paymentMethod)) with
      | none => rfl
      | some m =>
        have hmem : m ∈ db.payment_methods := List.mem_of_find?_eq_some hf
        have hm0 : m.method_id ≠ 0 := hpm_pos m hmem
        rw [pmTruthy, pmLookup, if_pos ht, hf] at h
        simp [hm0] at h
    · exact Or.inl (Bool.eq_false_iff.mpr ht)
  · intro h
    rcases h with h | h
    · rw [pmTruthy, pmLookup, if_neg (by simp [h])]
    · by_cases ht : truthyStr req.paymentMethod = true
      · rw [pmTruthy, pmLookup, if_pos ht, h]
      · rw [pmTruthy, pmLookup, if_neg ht]

/-- C6 (amended): given a non-empty body, the call fails with
"no fields to update" exactly when the status field is not truthy, no
`paidDate` is supplied, and the `paymentMethod` field is either not truthy or
fails the exact name lookup; whenever a truthy status or a `paidDate` is
supplied, an unresolvable `paymentMethod` is silently skipped and the call
succeeds. -/
theorem c6_no_fields_to_update_iff (db : DB) (inv : String)
    (req : UpdateInvoiceRequest) (now : DateTime)
    (hbody : req.nonEmptyBody = true)
    (hpm_pos : ∀ m ∈ db.payment_methods, m.method_id ≠ 0) :
    ((update_invoice db inv req now).1 = .errNoFields ↔
      (truthyStr req.status = false ∧ req.paidDate = none ∧
        (truthyStr req.paymentMethod = false ∨
          db.payment_methods.find? (fun m =>
            decide (some m.name = req.paymentMethod)) = none))) ∧
    ((truthyStr req.status = true ∨ req.paidDate ≠ none) →
      (update_invoice db inv req now).1 = .ok) := by
  have hnf_iff : noFieldsToUpdate db req = true ↔
      (truthyStr req.status = false ∧ req.paidDate = none ∧
        pmTruthy db req = none) := by
    rw [noFieldsToUpdate]
    constructor
    · intro h
      simp only [Bool.and_eq_true, Bool.not_eq_true'] at h
      refine ⟨h.1.1.1, ?_, Option.isNone_iff_eq_none.mp h.1.1.2⟩
      have := h.1.2
      exact Option.not_isSome_iff_eq_none.mp (by simp [this])
    · intro ⟨h1, h2, h3⟩
      have hsp : setPaidNowFlag req = false := by
        cases hst : req.status with
        | none => simp [setPaidNowFlag, hst]
        | some s =>
          have hs : s = "" := by
            by_contra hc
            rw [hst] at h1
            simp [truthyStr, hc] at h1
          simp [setPaidNowFlag, hst, hs]
      simp [h1, h2, h3, hsp]
  constructor
  · rw [update_invoice, if_neg (by simp [hbody])]
    constructor
    · intro h
      by_cases hc : noFieldsToUpdate db req = true
      · have := hnf_iff.mp hc
        exact ⟨this.1, this.2.1,
          (pmTruthy_eq_none_iff db req hpm_pos).mp this.2.2⟩
      · rw [if_neg hc] at h
        exact absurd h (by simp)
    · intro ⟨h1, h2, h3⟩
      have hc : noFieldsToUpdate db req = true :=
        hnf_iff.mpr ⟨h1, h2, (pmTruthy_eq_none_iff db req hpm_pos).mpr h3⟩
      rw [if_pos hc]
  · intro h
    have hc : noFieldsToUpdate db req = false := by
      rcases h with h | h
      · simp [noFieldsToUpdate, h]
      · have : req.paidDate.isSome = true := by
          cases hd : req.paidDate with
          | none => exact absurd hd h
          | some d => rfl
        simp [noFieldsToUpdate, this]
    rw [update_invoice, if_neg (by simp [hbody])]
    simp only [hc, Bool.false_eq_true, if_false]

/-- Closed instance of the amended C6: with only the unresolvable name
supplied the call errors, and the same unresolvable name alongside a status
is silently skipped. -/
theorem c6_no_fields_to_update_iff_witness :
    ((update_invoice dbC6 "INV-1" ⟨true, none, some "GCash", none⟩ ⟨10, 0⟩).1 =
      .errNoFields) ∧
    ((update_invoice dbC6 "INV-1" ⟨true, some "paid", some "GCash", none⟩
      ⟨10, 0⟩).1 = .ok) :=
  ⟨(c6_no_fields_to_update_iff dbC6 "INV-1" ⟨true, none, some "GCash", none⟩
      ⟨10, 0⟩ rfl (by decide)).1.mpr ⟨by decide, rfl, by decide⟩,
   (c6_no_fields_to_update_iff dbC6 "INV-1" ⟨true, some "paid", some "GCash", none⟩
      ⟨10, 0⟩ rfl (by decide)).2 (Or.inl (by decide))⟩

/-! ### C7: the check-in stamp is set once and never overwritten -/

theorem mostRecentVisit_mem (db : DB) (pid : String) (v : VisitRow)
    (h : mostRecentVisit db pid = some v) :
    v ∈ db.visits ∧ v.patient_id = pid := by
  obtain ⟨hm, _⟩ := latestBy_spec _ _ _ h
  rw [List.mem_filter, decide_eq_true_eq] at hm
  exact hm

theorem applyStatusUpdate_preserves_checkin (sid : Nat) (vid : String)
    (now : DateTime) (w : VisitRow) (t : DateTime)
    (h : w.check_in_datetime = some t) :
    (applyStatusUpdate sid vid now w).check_in_datetime = some t := by
  rw [applyStatusUpdate]
  by_cases hc : w.visit_id = vid
  · rw [if_pos hc]
    have : ¬ (sid = 2 ∧ w.check_in_datetime = none) := by
      intro hcon
      rw [h] at hcon
      exact Option.some_ne_none t hcon.2
    simp [this, h]
  · rw [if_neg hc]
    exact h

theorem update_patient_status_visits_shape (db : DB) (pid : String)
    (st : Option String) (now : DateTime) :
    (update_patient_status db pid st now).2.visits = db.visits ∨
    ∃ sid vid, (update_patient_status db pid st now).2.visits =
      db.visits.map (applyStatusUpdate sid vid now) := by
  cases st with
  | none => exact Or.inl rfl
  | some s =>
    simp only [update_patient_status]
    split
    · exact Or.inl rfl
    · split
      · exact Or.inl rfl
      · split
        · exact Or.inl rfl
        · exact Or.inr ⟨_, _, rfl⟩

theorem update_patient_status_checkin_preserved (db : DB) (pid : String)
    (st : Option String) (now : DateTime) (i : Nat)
    (h : i < db.visits.length) (t : DateTime)
    (hc : (db.visits.get ⟨i, h⟩).check_in_datetime = some t) :
    ∃ h2 : i < (update_patient_status db pid st now).2.visits.length,
      ((update_patient_status db pid st now).2.visits.get
        ⟨i, h2⟩).check_in_datetime = some t := by
  rcases update_patient_status_visits_shape db pid st now with heq | ⟨sid, vid, heq⟩
  · rw [heq]
    exact ⟨h, hc⟩
  · rw [heq]
    refine ⟨by simpa using h, ?_⟩
    rw [List.get_map]
    exact applyStatusUpdate_preserves_checkin sid vid now _ t hc

theorem runStatusCalls_checkin_preserved
    (calls : List (String × Option String × DateTime)) :
    ∀ (db0 : DB) (i : Nat) (h : i < db0.visits.length) (t : DateTime),
      (db0.visits.get ⟨i, h⟩).check_in_datetime = some t →
      ∃ h2 : i < (runStatusCalls db0 calls).visits.length,
        ((runStatusCalls db0 calls).visits.get ⟨i, h2⟩).check_in_datetime =
          some t := by
  induction calls with
  | nil => exact fun db0 i h t hc => ⟨h, hc⟩
  | cons c rest ih =>
    intro db0 i h t hc
    obtain ⟨cpid, cst, cnow⟩ := c
    obtain ⟨h2, hc2⟩ :=
      update_patient_status_checkin_preserved db0 cpid cst cnow i h t hc
    exact ih _ i h2 t hc2

/-- C7: a `"checked-in"` status update stamps the most recent visit's null
check-in timestamp to the call instant; and any visit whose check-in
timestamp is already non-null keeps that exact timestamp across every
sequence of `update_patient_status` calls. -/
theorem c7_checkin_stamp_set_once (db : DB) (pid : String) (now : DateTime)
    (v : VisitRow)
    (hrow : db.visit_status.find? (fun r => decide (r.name = "checked-in")) =
      some ⟨2, "checked-in"⟩)
    (hv : mostRecentVisit db pid = some v)
    (hnone : v.check_in_datetime = none) :
    (∃ w ∈ (update_patient_status db pid (some "checked-in") now).2.visits,
      w.visit_id = v.visit_id ∧ w.status_id = 2 ∧
      w.check_in_datetime = some now) ∧
    (∀ (db0 : DB) (calls : List (String × Option String × DateTime)) (i : Nat)
      (h : i < db0.visits.length) (t : DateTime),
      (db0.visits.get ⟨i, h⟩).check_in_datetime = some t →
      ∃ h2 : i < (runStatusCalls db0 calls).visits.length,
        ((runStatusCalls db0 calls).visits.get ⟨i, h2⟩).check_in_datetime =
          some t) := by
  constructor
  · have hmem := (mostRecentVisit_mem db pid v hv).1
    have hval : ¬¬("checked-in" = "waiting" ∨ True ∨
        "checked-in" = "completed") := fun hcon => hcon (Or.inr (Or.inl trivial))
    simp only [update_patient_status]
    rw [if_neg hval, hrow, hv]
    refine ⟨applyStatusUpdate 2 v.visit_id now v,
      List.mem_map_of_mem _ hmem, ?_, ?_, ?_⟩
    · rw [applyStatusUpdate, if_pos rfl]
    · rw [applyStatusUpdate, if_pos rfl]
    · rw [applyStatusUpdate, if_pos rfl]
      simp [hnone]
  · exact fun db0 calls => runStatusCalls_checkin_preserved calls db0

def dbC7 : DB :=
  ⟨[⟨"PAT-1", "Ana", "Cruz", "", ""⟩],
   [⟨"VIS-1", "PAT-1", none, ⟨9, 30⟩, 1, "", none, none⟩],
   [], [], [],
   [⟨1, "waiting"⟩, ⟨2, "checked-in"⟩, ⟨3, "completed"⟩], [], []⟩

/-- Closed instance of C7: checking in stamps the visit, and a subsequent
`"completed"` update leaves the stamp unchanged. -/
theorem c7_checkin_stamp_set_once_witness :
    (∃ w ∈ (update_patient_status dbC7 "PAT-1" (some "checked-in")
        ⟨10, 0⟩).2.visits,
      w.visit_id = "VIS-1" ∧ w.status_id = 2 ∧
      w.check_in_datetime = some ⟨10, 0⟩) ∧
    (∃ h2 : 0 < (runStatusCalls
        (update_patient_status dbC7 "PAT-1" (some "checked-in") ⟨10, 0⟩).2
        [("PAT-1", some "completed", ⟨10, 30⟩)]).visits.length,
      ((runStatusCalls
        (update_patient_status dbC7 "PAT-1" (some "checked-in") ⟨10, 0⟩).2
        [("PAT-1", some "completed", ⟨10, 30⟩)]).visits.get
          ⟨0, h2⟩).check_in_datetime = some ⟨10, 0⟩) := by
  have h := c7_checkin_stamp_set_once dbC7 "PAT-1" ⟨10, 0⟩
    ⟨"VIS-1", "PAT-1", none, ⟨9, 30⟩, 1, "", none, none⟩ (by decide) (by decide)
    (by decide)
  refine ⟨?_, ?_⟩
  · obtain ⟨w, hw, h1, h2, h3⟩ := h.1
    exact ⟨w, hw, h1, h2, h3⟩
  · exact h.2 (update_patient_status dbC7 "PAT-1" (some "checked-in") ⟨10, 0⟩).2
      [("PAT-1", some "completed", ⟨10, 30⟩)] 0 (by decide) ⟨10, 0⟩ (by decide)

/-! ### C2: merge-path line-item semantics and the (bill, service name)
uniqueness invariant -/

/-- At most one `BillService` row per (bill, service name) pair. -/
def svcNameInv (svcs : List BillServiceRow) : Prop :=
  List.Pairwise (fun a b =>
    ¬(a.bill_id = b.bill_id ∧ a.service_name = b.service_name)) svcs

/-- The row update of the merge path's hit branch. -/
def mergeUpd (ex : BillServiceRow) (it : ServiceItem) (s : BillServiceRow) :
    BillServiceRow :=
  if s.service_id = ex.service_id then
    { s with quantity := ex.quantity + it.quantity, amount := it.unitPrice }
  else s

theorem mergeUpd_fields (ex : BillServiceRow) (it : ServiceItem)
    (s : BillServiceRow) :
    (mergeUpd ex it s).bill_id = s.bill_id ∧
    (mergeUpd ex it s).service_name = s.service_name ∧
    (mergeUpd ex it s).service_id = s.service_id := by
  by_cases h : s.service_id = ex.service_id <;> simp [mergeUpd, h]

theorem applyMergeItem_found (svcs : List BillServiceRow) (billId fresh : String)
    (it : ServiceItem) (ex : BillServiceRow)
    (hfind : svcs.find? (fun s =>
      decide (s.bill_id = billId ∧ s.service_name = it.description)) = some ex) :
    applyMergeItem billId fresh svcs it = svcs.map (mergeUpd ex it) ∧
    (applyMergeItem billId fresh svcs it).length = svcs.length ∧
    { ex with quantity := ex.quantity + it.quantity, amount := it.unitPrice } ∈
      applyMergeItem billId fresh svcs it ∧
    (∀ s ∈ svcs, s.service_id ≠ ex.service_id →
      s ∈ applyMergeItem billId fresh svcs it) := by
  have heq : applyMergeItem billId fresh svcs it = svcs.map (mergeUpd ex it) := by
    rw [applyMergeItem, hfind]
    rfl
  refine ⟨heq, by rw [heq, List.length_map], ?_, ?_⟩
  · rw [heq]
    have hmem : ex ∈ svcs := List.mem_of_find?_eq_some hfind
    have : mergeUpd ex it ex =
        { ex with quantity := ex.quantity + it.quantity, amount := it.unitPrice } := by
      rw [mergeUpd, if_pos rfl]
    rw [← this]
    exact List.mem_map_of_mem _ hmem
  · intro s hs hne
    rw [heq]
    have : mergeUpd ex it s = s := by rw [mergeUpd, if_neg hne]
    rw [← this]
    exact List.mem_map_of_mem _ hs

theorem applyMergeItem_not_found (svcs : List BillServiceRow)
    (billId fresh : String) (it : ServiceItem)
    (hfind : svcs.find? (fun s =>
      decide (s.bill_id = billId ∧ s.service_name = it.description)) = none) :
    applyMergeItem billId fresh svcs it =
      svcs ++ [{ service_id := fresh, bill_id := billId,
                 service_name := it.description, amount := it.unitPrice,
                 quantity := it.quantity }] := by
  rw [applyMergeItem, hfind]

theorem applyMergeItem_nameInv (billId fresh : String)
    (svcs : List BillServiceRow) (it : ServiceItem) (hinv : svcNameInv svcs) :
    svcNameInv (applyMergeItem billId fresh svcs it) := by
  cases hfind : svcs.find? (fun s =>
      decide (s.bill_id = billId ∧ s.service_name = it.description)) with
  | some ex =>
    rw [(applyMergeItem_found svcs billId fresh it ex hfind).1]
    rw [svcNameInv, List.pairwise_map]
    refine hinv.imp ?_
    intro a b hab hcon
    exact hab ⟨((mergeUpd_fields ex it a).1).symm.trans
        (hcon.1.trans (mergeUpd_fields ex it b).1),
      ((mergeUpd_fields ex it a).2.1).symm.trans
        (hcon.2.trans (mergeUpd_fields ex it b).2.1)⟩
  | none =>
    rw [applyMergeItem_not_found svcs billId fresh it hfind]
    rw [svcNameInv, List.pairwise_append]
    refine ⟨hinv, List.pairwise_singleton _ _, ?_⟩
    intro a ha b hb
    rw [List.mem_singleton] at hb
    have hna := List.find?_eq_none.mp hfind a ha
    rw [decide_eq_true_eq] at hna
    intro hcon
    rw [hb] at hcon
    exact hna ⟨hcon.1, hcon.2⟩

theorem applyMergeItem_ids (billId fresh : String) (svcs : List BillServiceRow)
    (it : ServiceItem) :
    (applyMergeItem billId fresh svcs it).map (fun s => s.service_id) =
      svcs.map (fun s => s.service_id) ∨
    (applyMergeItem billId fresh svcs it).map (fun s => s.service_id) =
      svcs.map (fun s => s.service_id) ++ [fresh] := by
  cases hfind : svcs.find? (fun s =>
      decide (s.bill_id = billId ∧ s.service_name = it.description)) with
  | some ex =>
    left
    rw [(applyMergeItem_found svcs billId fresh it ex hfind).1, List.map_map]
    refine List.map_congr_left ?_
    intro s _
    exact (mergeUpd_fields ex it s).2.2
  | none =>
    right
    rw [applyMergeItem_not_found svcs billId fresh it hfind, List.map_append]
    rfl

theorem filter_map_eq_filter (p : BillServiceRow → Bool)
    (f : BillServiceRow → BillServiceRow) (hp : ∀ s, p (f s) = p s) :
    ∀ l : List BillServiceRow, (∀ s ∈ l, p s = true → f s = s) →
      (l.map f).filter p = l.filter p := by
  intro l
  induction l with
  | nil => intro _; rfl
  | cons x xs ih =>
    intro hf
    simp only [List.map_cons, List.filter_cons, hp x]
    by_cases hx : p x = true
    · rw [if_pos hx, if_pos hx,
        hf x (List.mem_cons_self x xs) hx,
        ih (fun s hs => hf s (List.mem_cons_of_mem x hs))]
    · rw [if_neg hx, if_neg hx,
        ih (fun s hs => hf s (List.mem_cons_of_mem x hs))]

theorem applyMergeItem_filter_other (billId fresh ob : String)
    (hob : ob ≠ billId) (svcs : List BillServiceRow) (it : ServiceItem)
    (hnd : (svcs.map (fun s => s.service_id)).Nodup) :
    (applyMergeItem billId fresh svcs it).filter
        (fun s => decide (s.bill_id = ob)) =
      svcs.filter (fun s => decide (s.bill_id = ob)) := by
  cases hfind : svcs.find? (fun s =>
      decide (s.bill_id = billId ∧ s.service_name = it.description)) with
  | some ex =>
    rw [(applyMergeItem_found svcs billId fresh it ex hfind).1]
    refine filter_map_eq_filter _ _ ?_ svcs ?_
    · intro s
      rw [(mergeUpd_fields ex it s).1]
    · intro s hs hps
      rw [decide_eq_true_eq] at hps
      rw [mergeUpd]
      refine if_neg ?_
      intro hid
      have hexmem : ex ∈ svcs := List.mem_of_find?_eq_some hfind
      have hexp : ex.bill_id = billId := by
        have h := List.find?_some hfind
        rw [decide_eq_true_eq] at h
        exact h.1
      have hse : s = ex := List.inj_on_of_nodup_map hnd hs hexmem hid
      rw [hse, hexp] at hps
      exact hob hps.symm
  | none =>
    rw [applyMergeItem_not_found svcs billId fresh it hfind, List.filter_append]
    have hone : ([{ service_id := fresh, bill_id := billId,
                    service_name := it.description, amount := it.unitPrice,
                    quantity := it.quantity : BillServiceRow }].filter
          (fun s => decide (s.bill_id = ob))) = [] := by
      simp [Ne.symm hob]
    rw [hone, List.append_nil]

theorem applyMergeItems_nameInv (billId : String) (sids : Nat → String)
    (items : List ServiceItem) :
    ∀ (svcs : List BillServiceRow) (k : Nat), svcNameInv svcs →
      svcNameInv (applyMergeItems billId sids svcs items k) := by
  induction items with
  | nil => exact fun svcs k h => h
  | cons it rest ih =>
    intro svcs k h
    exact ih _ (k + 1) (applyMergeItem_nameInv billId (sids k) svcs it h)

theorem applyMergeItems_nodup_filter (billId : String) (sids : Nat → String)
    (hinj : Function.Injective sids) (items : List ServiceItem) :
    ∀ (svcs : List BillServiceRow) (k : Nat),
      (svcs.map (fun s => s.service_id)).Nodup →
      (∀ j, k ≤ j → sids j ∉ svcs.map (fun s => s.service_id)) →
      ((applyMergeItems billId sids svcs items k).map
        (fun s => s.service_id)).Nodup ∧
      (∀ ob, ob ≠ billId →
        (applyMergeItems billId sids svcs items k).filter
            (fun s => decide (s.bill_id = ob)) =
          svcs.filter (fun s => decide (s.bill_id = ob))) := by
  induction items with
  | nil => exact fun svcs k hnd _ => ⟨hnd, fun _ _ => rfl⟩
  | cons it rest ih =>
    intro svcs k hnd hfresh
    have hstep := applyMergeItem_ids billId (sids k) svcs it
    have hnd' : ((applyMergeItem billId (sids k) svcs it).map
        (fun s => s.service_id)).Nodup := by
      rcases hstep with h | h
      · rw [h]; exact hnd
      · rw [h]
        simp [List.nodup_append, hnd, hfresh k le_rfl]
    have hfresh' : ∀ j, k + 1 ≤ j →
        sids j ∉ (applyMergeItem billId (sids k) svcs it).map
          (fun s => s.service_id) := by
      intro j hj
      rcases hstep with h | h
      · rw [h]
        exact hfresh j (Nat.le_of_succ_le hj)
      · rw [h]
        intro hmm
        rcases List.mem_append.mp hmm with hmm | hmm
        · exact hfresh j (Nat.le_of_succ_le hj) hmm
        · rw [List.mem_singleton] at hmm
          have : j = k := hinj hmm
          omega
    obtain ⟨h1, h2⟩ := ih (applyMergeItem billId (sids k) svcs it) (k + 1)
      hnd' hfresh'
    refine ⟨h1, ?_⟩
    intro ob hob
    show (applyMergeItems billId sids
      (applyMergeItem billId (sids k) svcs it) rest (k + 1)).filter
        (fun s => decide (s.bill_id = ob)) = _
    rw [h2 ob hob,
      applyMergeItem_filter_other billId (sids k) ob hob svcs it hnd]

/-- C2: on the merge path, a requested item whose description exactly matches
an existing row of the target bill updates that row in place (quantity becomes
existing + requested, amount becomes the new unit price, no row is inserted);
an item with no match appends exactly one new row; and the whole operation
preserves the at-most-one-row-per-(bill, service name) invariant. -/
theorem c2_merge_item_semantics :
    (∀ (svcs : List BillServiceRow) (billId fresh : String) (it : ServiceItem)
      (ex : BillServiceRow),
      svcs.find? (fun s =>
        decide (s.bill_id = billId ∧ s.service_name = it.description)) =
          some ex →
      (applyMergeItem billId fresh svcs it).length = svcs.length ∧
      { ex with quantity := ex.quantity + it.quantity,
                amount := it.unitPrice } ∈ applyMergeItem billId fresh svcs it ∧
      (∀ s ∈ svcs, s.service_id ≠ ex.service_id →
        s ∈ applyMergeItem billId fresh svcs it)) ∧
    (∀ (svcs : List BillServiceRow) (billId fresh : String) (it : ServiceItem),
      svcs.find? (fun s =>
        decide (s.bill_id = billId ∧ s.service_name = it.description)) = none →
      applyMergeItem billId fresh svcs it =
        svcs ++ [{ service_id := fresh, bill_id := billId,
                   service_name := it.description, amount := it.unitPrice,
                   quantity := it.quantity }]) ∧
    (∀ (db : DB) (req : InvoiceRequest) (now : DateTime) (vid bid : String)
      (sids : Nat → String) (bId : String),
      svcNameInv db.bill_services →
      (create_invoice db req now vid bid sids).1 = .merged bId →
      svcNameInv (create_invoice db req now vid bid sids).2.bill_services) := by
  refine ⟨?_, ?_, ?_⟩
  · intro svcs billId fresh it ex hfind
    obtain ⟨_, h2, h3, h4⟩ := applyMergeItem_found svcs billId fresh it ex hfind
    exact ⟨h2, h3, h4⟩
  · exact fun svcs billId fresh it hfind =>
      applyMergeItem_not_found svcs billId fresh it hfind
  · intro db req now vid bid sids bId hinv hres
    by_cases h1 : req.patientId = ""
    · rw [create_invoice, if_pos h1] at hres ⊢
      exact hinv
    · by_cases h2 : req.items = []
      · rw [create_invoice, if_neg h1, if_pos h2] at hres ⊢
        exact hinv
      · cases hfind : db.patients.find? (fun p =>
            decide (p.patient_id = req.patientId)) with
        | none =>
          rw [create_invoice, if_neg h1, if_neg h2, hfind] at hres ⊢
          exact hinv
        | some p0 =>
          cases hq : existingInvoiceQuery db req.patientId now.day with
          | some ex =>
            rw [create_invoice, if_neg h1, if_neg h2, hfind, hq]
            exact applyMergeItems_nameInv ex.bill_id sids req.items
              db.bill_services 0 hinv
          | none =>
            rw [create_invoice, if_neg h1, if_neg h2, hfind, hq] at hres
            simp at hres

def svcsC2 : List BillServiceRow := [⟨"SVC-1", "BILL-1", "Blood Test", 75, 1⟩]

/-- Closed instance of C2's hit branch: a second `"Blood Test"` request adds
quantities and overwrites the amount in place. -/
theorem c2_merge_item_semantics_witness :
    svcsC2.find? (fun s =>
      decide (s.bill_id = "BILL-1" ∧ s.service_name = "Blood Test")) =
        some ⟨"SVC-1", "BILL-1", "Blood Test", 75, 1⟩ ∧
    (applyMergeItem "BILL-1" "SVC-9" svcsC2 ⟨"Blood Test", 2, 80⟩).length = 1 ∧
    (⟨"SVC-1", "BILL-1", "Blood Test", 80, 3⟩ : BillServiceRow) ∈
      applyMergeItem "BILL-1" "SVC-9" svcsC2 ⟨"Blood Test", 2, 80⟩ :=
  ⟨by decide,
   (c2_merge_item_semantics.1 svcsC2 "BILL-1" "SVC-9" ⟨"Blood Test", 2, 80⟩
      ⟨"SVC-1", "BILL-1", "Blood Test", 75, 1⟩ (by decide)).1,
   (c2_merge_item_semantics.1 svcsC2 "BILL-1" "SVC-9" ⟨"Blood Test", 2, 80⟩
      ⟨"SVC-1", "BILL-1", "Blood Test", 75, 1⟩ (by decide)).2.1⟩

/-! ### C3: the subtotal / tax / total invariant -/

/-- The monetary invariant of one bill: the stored subtotal is the sum of
amount × quantity over the bill's rows, tax is 10% of it, and the total is
their sum. -/
def billInv (db : DB) (b : BillRow) : Prop :=
  b.subtotal = billSubtotal db.bill_services b.bill_id ∧
  b.tax = b.subtotal * (1 / 10) ∧
  b.amount_total = b.subtotal + b.tax

instance (db : DB) (b : BillRow) : Decidable (billInv db b) := by
  unfold billInv
  infer_instance

def allBillsInv (db : DB) : Prop := ∀ b ∈ db.bills, billInv db b

instance (db : DB) : Decidable (allBillsInv db) := by
  unfold allBillsInv
  infer_instance

theorem update_invoice_shape (db : DB) (inv : String)
    (req : UpdateInvoiceRequest) (now : DateTime) :
    (update_invoice db inv req now).2 = db ∨
    (update_invoice db inv req now).2 = { db with bills := db.bills.map (fun b =>
      if b.bill_id = pyReplace inv "INV-" "BILL-" then
        applyInvoiceUpdate db req now b else b) } := by
  rw [update_invoice]
  by_cases h1 : req.nonEmptyBody = false
  · rw [if_pos h1]
    exact Or.inl rfl
  · rw [if_neg h1]
    by_cases h2 : noFieldsToUpdate db req = true
    · rw [if_pos h2]
      exact Or.inl rfl
    · rw [if_neg h2]
      exact Or.inr rfl

theorem applyInvoiceUpdate_money_fields (db : DB) (req : UpdateInvoiceRequest)
    (now : DateTime) (b : BillRow) :
    (applyInvoiceUpdate db req now b).bill_id = b.bill_id ∧
    (applyInvoiceUpdate db req now b).subtotal = b.subtotal ∧
    (applyInvoiceUpdate db req now b).tax = b.tax ∧
    (applyInvoiceUpdate db req now b).amount_total = b.amount_total :=
  ⟨rfl, rfl, rfl, rfl⟩

/-- The line-item rows inserted on the create path. -/
def newSvcsOf (req : InvoiceRequest) (bid : String) (sids : Nat → String) :
    List BillServiceRow :=
  req.items.enum.map (fun p =>
    { service_id := sids p.1, bill_id := bid, service_name := p.2.description,
      amount := p.2.unitPrice, quantity := p.2.quantity })

theorem create_invoice_merge_shape (db : DB) (req : InvoiceRequest)
    (now : DateTime) (vid bid : String) (sids : Nat → String)
    (ex : BillRow) (p0 : PatientRow)
    (h1 : req.patientId ≠ "") (h2 : req.items ≠ [])
    (hfind : db.patients.find? (fun p =>
      decide (p.patient_id = req.patientId)) = some p0)
    (hq : existingInvoiceQuery db req.patientId now.day = some ex) :
    create_invoice db req now vid bid sids =
      (.merged ex.bill_id,
       { db with
         bill_services := applyMergeItems ex.bill_id sids db.bill_services req.items 0,
         bills := updateBillTotals db.bills ex.bill_id
           (billSubtotal
             (applyMergeItems ex.bill_id sids db.bill_services req.items 0)
             ex.bill_id) }) := by
  rw [create_invoice, if_neg h1, if_neg h2, hfind, hq]

theorem create_invoice_create_shape (db : DB) (req : InvoiceRequest)
    (now : DateTime) (vid bid : String) (sids : Nat → String) (p0 : PatientRow)
    (h1 : req.patientId ≠ "") (h2 : req.items ≠ [])
    (hfind : db.patients.find? (fun p =>
      decide (p.patient_id = req.patientId)) = some p0)
    (hq : existingInvoiceQuery db req.patientId now.day = none) :
    create_invoice db req now vid bid sids =
      (.created vid bid,
       { db with
         visits := db.visits ++
           [{ visit_id := vid, patient_id := req.patientId,
              doctor_id := resolveDoctor db req.patientId req.doctorId,
              visit_datetime := now, status_id := 1,
              notes := req.chiefComplaint, check_in_datetime := none,
              followup_date := none }],
         bills := db.bills ++
           [{ bill_id := bid, visit_id := vid, patient_id := req.patientId,
              subtotal := (req.items.map (fun it =>
                (it.quantity : ℚ) * it.unitPrice)).sum,
              tax := (req.items.map (fun it =>
                (it.quantity : ℚ) * it.unitPrice)).sum * (1 / 10),
              amount_total := (req.items.map (fun it =>
                (it.quantity : ℚ) * it.unitPrice)).sum +
                (req.items.map (fun it =>
                  (it.quantity : ℚ) * it.unitPrice)).sum * (1 / 10),
              status := "Pending", payment_method_id := none,
              payment_date := none, billing_date := now }],
         bill_services := db.bill_services ++ newSvcsOf req bid sids }) := by
  rw [create_invoice, if_neg h1, if_neg h2, hfind, hq]
  rfl

theorem billSubtotal_congr_filter (svcs svcs' : List BillServiceRow)
    (bid : String)
    (h : svcs'.filter (fun s => decide (s.bill_id = bid)) =
      svcs.filter (fun s => decide (s.bill_id = bid))) :
    billSubtotal svcs' bid = billSubtotal svcs bid := by
  rw [billSubtotal, billSubtotal, h]

theorem billSubtotal_append_other (svcs newSvcs : List BillServiceRow)
    (bid : String) (h : ∀ s ∈ newSvcs, s.bill_id ≠ bid) :
    billSubtotal (svcs ++ newSvcs) bid = billSubtotal svcs bid := by
  rw [billSubtotal, billSubtotal, List.filter_append]
  have hnil : newSvcs.filter (fun s => decide (s.bill_id = bid)) = [] := by
    rw [List.filter_eq_nil_iff]
    intro s hs
    simpa using h s hs
  rw [hnil, List.append_nil]

theorem billSubtotal_append_self (svcs newSvcs : List BillServiceRow)
    (bid : String) (hold : ∀ s ∈ svcs, s.bill_id ≠ bid)
    (hnew : ∀ s ∈ newSvcs, s.bill_id = bid) :
    billSubtotal (svcs ++ newSvcs) bid =
      (newSvcs.map (fun s => s.amount * (s.quantity : ℚ))).sum := by
  rw [billSubtotal, List.filter_append]
  have h1 : svcs.filter (fun s => decide (s.bill_id = bid)) = [] := by
    rw [List.filter_eq_nil_iff]
    intro s hs
    simpa using hold s hs
  have h2 : newSvcs.filter (fun s => decide (s.bill_id = bid)) = newSvcs :=
    List.filter_eq_self.mpr (fun s hs => by simpa using hnew s hs)
  rw [h1, h2, List.nil_append]

theorem newSvcsOf_sum (req : InvoiceRequest) (bid : String)
    (sids : Nat → String) :
    ((newSvcsOf req bid sids).map (fun s => s.amount * (s.quantity : ℚ))).sum =
      (req.items.map (fun it => (it.quantity : ℚ) * it.unitPrice)).sum := by
  rw [newSvcsOf, List.map_map]
  have h1 : req.items.enum.map ((fun s => s.amount * (s.quantity : ℚ)) ∘
      (fun p : Nat × ServiceItem =>
        ({ service_id := sids p.1, bill_id := bid,
           service_name := p.2.description, amount := p.2.unitPrice,
           quantity := p.2.quantity } : BillServiceRow))) =
      req.items.enum.map ((fun it : ServiceItem =>
        it.unitPrice * (it.quantity : ℚ)) ∘ Prod.snd) :=
    List.map_congr_left (fun p _ => rfl)
  rw [h1, ← List.map_map, List.enum_map_snd]
  refine congrArg List.sum ?_
  exact List.map_congr_left (fun it _ => mul_comm _ _)

theorem newSvcsOf_bill_id (req : InvoiceRequest) (bid : String)
    (sids : Nat → String) : ∀ s ∈ newSvcsOf req bid sids, s.bill_id = bid := by
  intro s hs
  rw [newSvcsOf, List.mem_map] at hs
  obtain ⟨p, _, hp⟩ := hs
  rw [← hp]

theorem create_patient_shape (db : DB) (req : RegisterRequest) (now : DateTime)
    (pid vid bid sid : String)
    (herr : ¬(req.firstName = "" ∨ req.lastName = "" ∨ req.dateOfBirth = "" ∨
      req.gender = "" ∨ req.phone = "")) :
    create_patient db req now pid vid bid sid =
      (.ok,
       { db with
         patients := db.patients ++
           [{ patient_id := pid, first_name := req.firstName,
              last_name := req.lastName, phone := req.phone,
              email := req.email }],
         visits := db.visits ++
           [{ visit_id := vid, patient_id := pid,
              doctor_id := resolveAssignedDoctor db req.assignedDoctor,
              visit_datetime := now, status_id := 1, notes := req.medicalNotes,
              check_in_datetime := none,
              followup_date := if req.hasFollowUp then req.followUpDate else none }],
         bills := db.bills ++
           [{ bill_id := bid, visit_id := vid, patient_id := pid,
              subtotal := consultationPriceValue db,
              tax := consultationPriceValue db * (1 / 10),
              amount_total := consultationPriceValue db +
                consultationPriceValue db * (1 / 10),
              status := "Pending", payment_method_id := none,
              payment_date := none, billing_date := now }],
         bill_services := db.bill_services ++
           [{ service_id := sid, bill_id := bid,
              service_name := "Consultation Fee",
              amount := consultationPriceValue db, quantity := 1 }] }) := by
  rw [create_patient, if_neg herr]

/-- C3: each of the three bill-writing operations leaves every bill satisfying
subtotal = Σ amount × quantity over its rows, tax = subtotal × 0.10 and
total = subtotal + tax; `update_invoice` touches neither the line items nor
any bill's monetary fields, so the invariant is preserved by every mutation. -/
theorem c3_totals_invariant :
    (∀ (db : DB) (req : InvoiceRequest) (now : DateTime) (vid bid : String)
      (sids : Nat → String),
      allBillsInv db →
      (db.bill_services.map (fun s => s.service_id)).Nodup →
      (∀ j, sids j ∉ db.bill_services.map (fun s => s.service_id)) →
      Function.Injective sids →
      (∀ b ∈ db.bills, b.bill_id ≠ bid) →
      (∀ s ∈ db.bill_services, s.bill_id ≠ bid) →
      allBillsInv (create_invoice db req now vid bid sids).2) ∧
    (∀ (db : DB) (req : RegisterRequest) (now : DateTime)
      (pid vid bid sid : String),
      allBillsInv db →
      (∀ b ∈ db.bills, b.bill_id ≠ bid) →
      (∀ s ∈ db.bill_services, s.bill_id ≠ bid) →
      allBillsInv (create_patient db req now pid vid bid sid).2) ∧
    (∀ (db : DB) (inv : String) (req : UpdateInvoiceRequest) (now : DateTime),
      (update_invoice db inv req now).2.bill_services = db.bill_services ∧
      (update_invoice db inv req now).2.bills.map
          (fun b => (b.bill_id, b.subtotal, b.tax, b.amount_total)) =
        db.bills.map (fun b => (b.bill_id, b.subtotal, b.tax, b.amount_total)) ∧
      (allBillsInv db → allBillsInv (update_invoice db inv req now).2)) := by
  refine ⟨?_, ?_, ?_⟩
  · intro db req now vid bid sids hInv hnd hfresh hinj hbidB hbidS
    by_cases h1 : req.patientId = ""
    · rw [create_invoice, if_pos h1]
      exact hInv
    · by_cases h2 : req.items = []
      · rw [create_invoice, if_neg h1, if_pos h2]
        exact hInv
      · cases hfind : db.patients.find? (fun p =>
            decide (p.patient_id = req.patientId)) with
        | none =>
          rw [create_invoice, if_neg h1, if_neg h2, hfind]
          exact hInv
        | some p0 =>
          cases hq : existingInvoiceQuery db req.patientId now.day with
          | some ex =>
            rw [create_invoice_merge_shape db req now vid bid sids ex p0
              h1 h2 hfind hq]
            obtain ⟨_, hfold_filter⟩ :=
              applyMergeItems_nodup_filter ex.bill_id sids hinj req.items
                db.bill_services 0 hnd (fun j _ => hfresh j)
            intro b' hb'
            rw [updateBillTotals, List.mem_map] at hb'
            obtain ⟨b, hb, hgb⟩ := hb'
            by_cases hc : b.bill_id = ex.bill_id
            · rw [if_pos hc] at hgb
              rw [← hgb]
              refine ⟨?_, rfl, rfl⟩
              show billSubtotal
                (applyMergeItems ex.bill_id sids db.bill_services req.items 0)
                ex.bill_id = _
              rw [hc]
            · rw [if_neg hc] at hgb
              rw [← hgb]
              obtain ⟨hs1, hs2, hs3⟩ := hInv b hb
              refine ⟨?_, hs2, hs3⟩
              show b.subtotal = billSubtotal
                (applyMergeItems ex.bill_id sids db.bill_services req.items 0)
                b.bill_id
              rw [hs1]
              exact (billSubtotal_congr_filter db.bill_services _ b.bill_id
                (hfold_filter b.bill_id hc)).symm
          | none =>
            rw [create_invoice_create_shape db req now vid bid sids p0
              h1 h2 hfind hq]
            intro b' hb'
            rcases List.mem_append.mp hb' with hb | hb
            · obtain ⟨hs1, hs2, hs3⟩ := hInv b' hb
              refine ⟨?_, hs2, hs3⟩
              show b'.subtotal = billSubtotal
                (db.bill_services ++ newSvcsOf req bid sids) b'.bill_id
              rw [hs1]
              refine (billSubtotal_append_other db.bill_services
                (newSvcsOf req bid sids) b'.bill_id ?_).symm
              intro s hs
              rw [newSvcsOf_bill_id req bid sids s hs]
              exact fun hcon => hbidB b' hb hcon.symm
            · rw [List.mem_singleton] at hb
              rw [hb]
              refine ⟨?_, rfl, rfl⟩
              show (req.items.map (fun it =>
                  (it.quantity : ℚ) * it.unitPrice)).sum = billSubtotal
                (db.bill_services ++ newSvcsOf req bid sids) bid
              rw [billSubtotal_append_self db.bill_services
                (newSvcsOf req bid sids) bid hbidS
                (newSvcsOf_bill_id req bid sids), newSvcsOf_sum]
  · intro db req now pid vid bid sid hInv hbidB hbidS
    by_cases herr : req.firstName = "" ∨ req.lastName = "" ∨
        req.dateOfBirth = "" ∨ req.gender = "" ∨ req.phone = ""
    · rw [create_patient, if_pos herr]
      exact hInv
    · rw [create_patient_shape db req now pid vid bid sid herr]
      intro b' hb'
      rcases List.mem_append.mp hb' with hb | hb
      · obtain ⟨hs1, hs2, hs3⟩ := hInv b' hb
        refine ⟨?_, hs2, hs3⟩
        show b'.subtotal = billSubtotal (db.bill_services ++
          [{ service_id := sid, bill_id := bid,
             service_name := "Consultation Fee",
             amount := consultationPriceValue db, quantity := 1 }]) b'.bill_id
        rw [hs1]
        refine (billSubtotal_append_other db.bill_services _ b'.bill_id ?_).symm
        intro s hs
        rw [List.mem_singleton] at hs
        rw [hs]
        exact fun hcon => hbidB b' hb hcon.symm
      · rw [List.mem_singleton] at hb
        rw [hb]
        refine ⟨?_, rfl, rfl⟩
        show consultationPriceValue db = billSubtotal (db.bill_services ++
          [{ service_id := sid, bill_id := bid,
             service_name := "Consultation Fee",
             amount := consultationPriceValue db, quantity := 1 }]) bid
        rw [billSubtotal_append_self db.bill_services _ bid hbidS
          (by intro s hs; rw [List.mem_singleton] at hs; rw [hs])]
        simp
  · intro db inv req now
    rcases update_invoice_shape db inv req now with h | h
    · rw [h]
      exact ⟨rfl, rfl, fun hi => hi⟩
    · rw [h]
      refine ⟨rfl, ?_, ?_⟩
      · rw [List.map_map]
        refine List.map_congr_left ?_
        intro b _
        show (fun b => (b.bill_id, b.subtotal, b.tax, b.amount_total))
          (if b.bill_id = pyReplace inv "INV-" "BILL-" then
            applyInvoiceUpdate db req now b else b) = _
        by_cases hc : b.bill_id = pyReplace inv "INV-" "BILL-"
        · rw [if_pos hc]
          rfl
        · rw [if_neg hc]
      · intro hInv b' hb'
        rw [List.mem_map] at hb'
        obtain ⟨b, hb, hgb⟩ := hb'
        rw [← hgb]
        by_cases hc : b.bill_id = pyReplace inv "INV-" "BILL-"
        · rw [if_pos hc]
          exact hInv b hb
        · rw [if_neg hc]
          exact hInv b hb

def dbC3 : DB := ⟨[⟨"PAT-1", "Ana", "Cruz", "", ""⟩], [], [], [], [], [], [], []⟩

def sidsW : Nat → String := fun k => String.mk (List.replicate k 'a')

theorem sidsW_injective : Function.Injective sidsW := by
  intro a b h
  have h2 : List.replicate a 'a' = List.replicate b 'a' :=
    congrArg String.data h
  have h3 := congrArg List.length h2
  simpa using h3

/-- Closed instance of C3: submitting one item against a fresh patient leaves
every bill satisfying the totals invariant. -/
theorem c3_totals_invariant_witness :
    allBillsInv dbC3 ∧
    allBillsInv (create_invoice dbC3 ⟨"PAT-1", none, "", [⟨"Blood Test", 1, 75⟩]⟩
      ⟨10, 0⟩ "VIS-A" "BILL-A" sidsW).2 :=
  ⟨by decide,
   c3_totals_invariant.1 dbC3 ⟨"PAT-1", none, "", [⟨"Blood Test", 1, 75⟩]⟩
     ⟨10, 0⟩ "VIS-A" "BILL-A" sidsW (by decide) (by decide)
     (by intro j; simp [dbC3]) sidsW_injective (by decide) (by decide)⟩

/-- Closed instance of C1: after the first submission created the bill, the
identical same-day submission takes the merge path and creates no visit. -/
theorem c1_merge_or_create_witness :
    (∃ b ∈ dbC1'.bills, pendingSameDayPred "PAT-1" 10 b) ∧
    (∃ bId, (create_invoice dbC1' reqC1 ⟨10, 200⟩ "VIS-B" "BILL-B" sidsB).1 =
      .merged bId) ∧
    (create_invoice dbC1' reqC1 ⟨10, 200⟩ "VIS-B" "BILL-B" sidsB).2.visits =
      dbC1'.visits := by
  have h := c1_merge_or_create dbC1' reqC1 ⟨10, 200⟩ "VIS-B" "BILL-B" sidsB
    (by decide) (by decide) (by decide) (by decide)
  exact ⟨by decide, (h.1 (by decide)).1, (h.1 (by decide)).2.1⟩
